import Mathlib

/-!
Shallow embedding of the editor content-hover coordination engine from
`src/vs/editor/contrib/hover/browser/contentHover.ts`: the anchor model,
hover results and their filtering, the hover computer's synchronous
computation and line-decoration filtering, the hover-range computation
used for display, and the coordinator state machine
(`ContentHoverController`).

Line and column numbers are JS numbers holding integral values; they are
modelled as `Int`. External collaborators (the DOM widget geometry, the
view-model coordinate converter, participant implementations, the range
utilities of `vs/editor/common/core`) are modelled as explicit
parameters/oracles or, where this snapshot does not contain them, from the
spec's words (each such definition says so in its doc comment).
-/

namespace ContentHover

/-- A line/column span, as `Range` of `vs/editor/common/core/range.ts`. -/
structure Range where
  startLineNumber : Int
  startColumn : Int
  endLineNumber : Int
  endColumn : Int
deriving DecidableEq, Repr

/-- A line/column position, as `Position` of
`vs/editor/common/core/position.ts`. -/
structure Position where
  lineNumber : Int
  column : Int
deriving DecidableEq, Repr

/-- Modelled from the spec: `Range.plusRange` lives in
`vs/editor/common/core/range.ts`, which is not part of this snapshot; the
spec describes it as the union, i.e. the smallest enclosing range: the
start is the lexicographically smaller start, the end the lexicographically
larger end. -/
def Range.plusRange (a b : Range) : Range where
  startLineNumber :=
    if b.startLineNumber < a.startLineNumber then b.startLineNumber else a.startLineNumber
  startColumn :=
    if b.startLineNumber < a.startLineNumber then b.startColumn
    else if b.startLineNumber = a.startLineNumber then min a.startColumn b.startColumn
    else a.startColumn
  endLineNumber :=
    if b.endLineNumber > a.endLineNumber then b.endLineNumber else a.endLineNumber
  endColumn :=
    if b.endLineNumber > a.endLineNumber then b.endColumn
    else if b.endLineNumber = a.endLineNumber then max a.endColumn b.endColumn
    else a.endColumn

/-- Modelled from the spec: range containment, giving "smallest enclosing
range" its meaning. `outer` encloses `inner` iff `outer` starts at or
before `inner`'s start and ends at or after `inner`'s end, in lexicographic
line/column order. -/
def Range.containsRange (outer inner : Range) : Prop :=
  (outer.startLineNumber < inner.startLineNumber ∨
    (outer.startLineNumber = inner.startLineNumber ∧ outer.startColumn ≤ inner.startColumn)) ∧
  (inner.endLineNumber < outer.endLineNumber ∨
    (inner.endLineNumber = outer.endLineNumber ∧ inner.endColumn ≤ outer.endColumn))

instance (a b : Range) : Decidable (a.containsRange b) := by
  unfold Range.containsRange
  infer_instance

/-- The closed set of anchor kinds (`HoverAnchorType` in `hoverTypes.ts`):
a Range anchor versus a foreign-element anchor. -/
inductive HoverAnchorType where
  | Range
  | ForeignElement
deriving DecidableEq, Repr

/-- An anchor: where in the document, and why, a hover was triggered.
Declared in `hoverTypes.ts` (not in this snapshot); fields per the spec's
data model (`type`, `range`, `priority`, `supportsMarkerHover`). -/
structure HoverAnchor where
  type : HoverAnchorType
  range : Range
  priority : Int
  supportsMarkerHover : Bool
deriving DecidableEq, Repr

/-- Modelled from the spec: `HoverAnchor.equals` is declared in
`hoverTypes.ts`, which is not part of this snapshot. Spec data model:
two anchors are equal iff same type and same range. -/
def HoverAnchor.equals (a other : HoverAnchor) : Bool :=
  a.type == other.type && a.range == other.range

/-- `IHoverPart` (interface in `hoverTypes.ts`): data fields per the spec's
data model. The interface method `isValidForHoverAnchor` is dynamic
dispatch into participant code, modelled as an explicit function
`isValidForHoverAnchor : IHoverPart → HoverAnchor → Bool` wherever the
source calls `m.isValidForHoverAnchor(anchor)`. The owning participant is
identified by its ordinal. -/
structure IHoverPart where
  owner : Int
  range : Range
  isBeforeContent : Bool
  forceShowAtRange : Bool
deriving DecidableEq, Repr

/-- `HoverResult` and its subclass `FilteredHoverResult` (contentHover.ts
373-404): a `filtered` value is a `FilteredHoverResult` carrying its
pre-filter `original`. -/
inductive HoverResult where
  | base (anchor : HoverAnchor) (messages : List IHoverPart) (isComplete : Bool)
  | filtered (original : HoverResult) (anchor : HoverAnchor)
      (messages : List IHoverPart) (isComplete : Bool)
deriving DecidableEq, Repr

def HoverResult.anchor : HoverResult → HoverAnchor
  | .base a _ _ => a
  | .filtered _ a _ _ => a

def HoverResult.messages : HoverResult → List IHoverPart
  | .base _ m _ => m
  | .filtered _ _ m _ => m

def HoverResult.isComplete : HoverResult → Bool
  | .base _ _ c => c
  | .filtered _ _ _ c => c

/-- `HoverResult.filter` (contentHover.ts 381-387) together with the
`FilteredHoverResult.filter` override (401-403): a base result keeps only
the messages valid for the new anchor and returns itself when nothing was
dropped; a filtered result delegates to its original. -/
def HoverResult.filter (isValidForHoverAnchor : IHoverPart → HoverAnchor → Bool) :
    HoverResult → HoverAnchor → HoverResult
  | r@(.base a msgs c), anchor =>
    let filteredMessages := msgs.filter (fun m => isValidForHoverAnchor m anchor)
    if filteredMessages.length = msgs.length then r
    else .filtered r a filteredMessages c
  | .filtered original _ _ _, anchor => original.filter isValidForHoverAnchor anchor

/-- Decoration options read by the computer (`isWholeLine`,
`showIfCollapsed`) from `vs/editor/common/model`. -/
structure ModelDecorationOptions where
  isWholeLine : Bool
  showIfCollapsed : Bool
deriving DecidableEq, Repr

/-- `IModelDecoration`, restricted to the fields the computer reads. -/
structure IModelDecoration where
  range : Range
  options : ModelDecorationOptions
deriving DecidableEq, Repr

/-- The document/decoration source interface consumed by the computer
(`getLineCount`, `getLineMaxColumn`, `getLineDecorations`); the editor's
`hasModel()` is modelled by passing `Option EditorModel`. -/
structure EditorModel where
  lineCount : Int
  lineMaxColumn : Int → Int
  lineDecorations : Int → List IModelDecoration

/-- `ContentHoverComputer._getLineDecorations` (contentHover.ts 885-919):
non-Range anchors without marker-hover support see no decorations; an
invalid line yields none; otherwise a decoration passes if it is
whole-line, or its column span on the anchor's line covers the anchor's
column span, the check being relaxed by one column on each side for
`showIfCollapsed` decorations. -/
def ContentHoverComputer.getLineDecorations (editor : EditorModel)
    (anchor : HoverAnchor) : List IModelDecoration :=
  if anchor.type ≠ HoverAnchorType.Range ∧ anchor.supportsMarkerHover = false then []
  else
    let lineNumber := anchor.range.startLineNumber
    if lineNumber > editor.lineCount then []
    else
      let maxColumn := editor.lineMaxColumn lineNumber
      (editor.lineDecorations lineNumber).filter fun d =>
        if d.options.isWholeLine then true
        else
          let startColumn :=
            if d.range.startLineNumber = lineNumber then d.range.startColumn else 1
          let endColumn :=
            if d.range.endLineNumber = lineNumber then d.range.endColumn else maxColumn
          if d.options.showIfCollapsed then
            if startColumn > anchor.range.startColumn + 1 ∨
                anchor.range.endColumn - 1 > endColumn then false else true
          else
            if startColumn > anchor.range.startColumn ∨
                anchor.range.endColumn > endColumn then false else true

/-- The decoration-qualification rule as the spec states it: a decoration
qualifies if it is whole-line, or its column span on the anchor's line
covers the anchor's column span, with a one-column tolerance on each side
when the decoration is marked show-if-collapsed. -/
def specDecorationQualifies (editor : EditorModel) (anchor : HoverAnchor)
    (d : IModelDecoration) : Bool :=
  d.options.isWholeLine ||
    (let lineNumber := anchor.range.startLineNumber
     let startColumn :=
       if d.range.startLineNumber = lineNumber then d.range.startColumn else 1
     let endColumn :=
       if d.range.endLineNumber = lineNumber then d.range.endColumn
       else editor.lineMaxColumn lineNumber
     if d.options.showIfCollapsed then
       decide (startColumn ≤ anchor.range.startColumn + 1) &&
         decide (anchor.range.endColumn ≤ endColumn + 1)
     else
       decide (startColumn ≤ anchor.range.startColumn) &&
         decide (anchor.range.endColumn ≤ endColumn))

/-- A hover participant (`IEditorHoverParticipant`, consumed interface):
its rendering ordinal, its synchronous computation (whose returned array
may contain undefined entries, modelled as `Option`), and its optional
`createLoadingMessage`. -/
structure Participant where
  hoverOrdinal : Int
  computeSync : HoverAnchor → List IModelDecoration → List (Option IHoverPart)
  createLoadingMessage : Option (HoverAnchor → Option IHoverPart)

/-- The participant order fixed at construction (contentHover.ts 50-55):
`this._participants.sort((p1, p2) => p1.hoverOrdinal - p2.hoverOrdinal)`. -/
def ContentHoverController.sortParticipants (ps : List Participant) : List Participant :=
  ps.mergeSort (fun p1 p2 => p1.hoverOrdinal ≤ p2.hoverOrdinal)

/-- Debounced versus immediate start of a hover operation
(`hoverOperation.ts`, consumed interface). -/
inductive HoverStartMode where
  | Delayed
  | Immediate
deriving DecidableEq, Repr

/-- Trigger source of a hover operation (`hoverOperation.ts`). -/
inductive HoverStartSource where
  | Mouse
  | Keyboard
deriving DecidableEq, Repr

/-- The mutable fields of `ContentHoverComputer` (contentHover.ts 861-883),
owned and mutated only by the controller. -/
structure ComputerState where
  anchor : Option HoverAnchor
  shouldFocus : Bool
  source : HoverStartSource
  insistOnKeepingHoverVisible : Bool
deriving DecidableEq, Repr

/-- `ContentHoverComputer.computeSync` (contentHover.ts 939-952): empty
when there is no model or no anchor; otherwise each participant's
synchronous parts are concatenated in participant order and `coalesce`
(modelled as `filterMap id`) drops null/undefined entries. -/
def ContentHoverComputer.computeSync (editorModel : Option EditorModel)
    (participants : List Participant) (state : ComputerState) : List IHoverPart :=
  match editorModel, state.anchor with
  | some editor, some anchor =>
    let lineDecorations := ContentHoverComputer.getLineDecorations editor anchor
    let result := participants.foldl
      (fun acc p => acc ++ p.computeSync anchor lineDecorations) []
    result.filterMap id
  | _, _ => []

/-- Result of `ContentHoverController.computeHoverRanges`. -/
structure HoverRanges where
  showAtPosition : Position
  showAtSecondaryPosition : Position
  highlightRange : Range
deriving DecidableEq, Repr

/-- The loop body of `ContentHoverController.computeHoverRanges`
(contentHover.ts 334-343): accumulates the triple
(highlightRange, renderStartColumn, forceShowAtRange). -/
def ContentHoverController.hoverRangesStep (anchorLineNumber startColumnBoundary : Int)
    (acc : Range × Int × Option Range) (msg : IHoverPart) : Range × Int × Option Range :=
  let highlightRange := acc.1.plusRange msg.range
  let renderStartColumn :=
    if msg.range.startLineNumber = anchorLineNumber ∧
        msg.range.endLineNumber = anchorLineNumber then
      max (min acc.2.1 msg.range.startColumn) startColumnBoundary
    else acc.2.1
  let forceShowAtRange := if msg.forceShowAtRange then some msg.range else acc.2.2
  (highlightRange, renderStartColumn, forceShowAtRange)

/-- `ContentHoverController.computeHoverRanges` (contentHover.ts 318-350).
The start-column boundary obtained from the view model's coordinate
converter is an external computation; it is passed in as
`modelStartColumnBoundary` and, as in the source, used only when the
editor has a model (otherwise the initial value 1 stands). JS would fail
reading `messages[0]` of an empty list; this fallibility is modelled by
`Option`. -/
def ContentHoverController.computeHoverRanges (hasModel : Bool)
    (modelStartColumnBoundary : Int) (anchorRange : Range)
    (messages : List IHoverPart) : Option HoverRanges :=
  let startColumnBoundary := if hasModel then modelStartColumnBoundary else 1
  match messages with
  | [] => none
  | first :: _ =>
    let anchorLineNumber := anchorRange.startLineNumber
    let final := messages.foldl
      (ContentHoverController.hoverRangesStep anchorLineNumber startColumnBoundary)
      (first.range, anchorRange.startColumn, none)
    some {
      showAtPosition :=
        match final.2.2 with
        | some r => ⟨r.startLineNumber, r.startColumn⟩
        | none => ⟨anchorLineNumber, anchorRange.startColumn⟩
      showAtSecondaryPosition :=
        match final.2.2 with
        | some r => ⟨r.startLineNumber, r.startColumn⟩
        | none => ⟨anchorLineNumber, final.2.1⟩
      highlightRange := final.1
    }

/-- The highlight region exactly as the spec words it: the union (smallest
enclosing range) of the anchor's range and every part's range. -/
def specAnchorPartsUnion (anchorRange : Range) (messages : List IHoverPart) : Range :=
  messages.foldl (fun acc m => acc.plusRange m.range) anchorRange

/-- State owned by `ContentHoverController`: the computer's transient
fields, `_currentResult`, and the widget's visible position
(`_widget.position`, which is null exactly when nothing is shown). -/
structure ControllerState where
  computer : ComputerState
  currentResult : Option HoverResult
  widgetPosition : Option Position
deriving DecidableEq, Repr

/-- Calls issued to the external `HoverOperation` scheduling service. -/
inductive OperationEvent where
  | cancel
  | start (mode : HoverStartMode)
deriving DecidableEq, Repr

/-- External collaborators consumed by the controller: the parts'
`isValidForHoverAnchor` dispatch and the anchors' `canAdoptVisibleHover`
(both declared in `hoverTypes.ts`, outside this snapshot), whether the
participants' rendering produced DOM content (`fragment.hasChildNodes()`,
deciding if the widget is (re)shown), the model presence and the
view-model start-column boundary used by `computeHoverRanges`, and the
constructed participant list. -/
structure HoverEnv where
  isValidForHoverAnchor : IHoverPart → HoverAnchor → Bool
  canAdoptVisibleHover : HoverAnchor → HoverAnchor → Position → Bool
  rendersNonEmpty : HoverAnchor → List IHoverPart → Bool
  hasModel : Bool
  startColumnBoundary : Range → Int
  participants : List Participant

/-- `ContentHoverController._renderMessages` (contentHover.ts 255-311),
reduced to its effect on the coordinator-visible state: compute the hover
ranges and, when the participants produced content, show the widget at the
computed position; otherwise leave the widget untouched. -/
def ContentHoverController.renderMessages (env : HoverEnv) (st : ControllerState)
    (anchor : HoverAnchor) (messages : List IHoverPart) : ControllerState :=
  match ContentHoverController.computeHoverRanges env.hasModel
      (env.startColumnBoundary anchor.range) anchor.range messages with
  | none => st
  | some ranges =>
    if env.rendersNonEmpty anchor messages then
      { st with widgetPosition := some ranges.showAtPosition }
    else st

/-- `ContentHoverController._setCurrentResult` (contentHover.ts 185-199):
skip if unchanged (the JS `===` identity test is modelled as structural
equality), normalize a zero-message result to null, store it, then render
or hide. -/
def ContentHoverController.setCurrentResult (env : HoverEnv) (st : ControllerState)
    (hoverResult : Option HoverResult) : ControllerState :=
  if st.currentResult = hoverResult then st
  else
    let hoverResult := match hoverResult with
      | some r => if r.messages.length = 0 then none else some r
      | none => none
    let st := { st with currentResult := hoverResult }
    match hoverResult with
    | some r => ContentHoverController.renderMessages env st r.anchor r.messages
    | none => { st with widgetPosition := none }

/-- `ContentHoverController._startHoverOperationIfNecessary` (contentHover.ts
171-183), with the calls to the external `HoverOperation` recorded as
events. -/
def ContentHoverController.startHoverOperationIfNecessary (st : ControllerState)
    (anchor : HoverAnchor) (mode : HoverStartMode) (source : HoverStartSource)
    (focus insistOnKeepingHoverVisible : Bool) :
    ControllerState × List OperationEvent :=
  if (match st.computer.anchor with
      | some a => a.equals anchor
      | none => false) then
    (st, [])
  else
    ({ st with computer :=
        { anchor := some anchor
          shouldFocus := focus
          source := source
          insistOnKeepingHoverVisible := insistOnKeepingHoverVisible } },
     [OperationEvent.cancel, OperationEvent.start mode])

/-- `ContentHoverController._withResult` (contentHover.ts 237-253). -/
def ContentHoverController.withResult (env : HoverEnv) (st : ControllerState)
    (hoverResult : HoverResult) : ControllerState :=
  let visibleWithCompleteResult :=
    st.widgetPosition.isSome &&
      (match st.currentResult with
       | some r => r.isComplete
       | none => false)
  if visibleWithCompleteResult && !hoverResult.isComplete then
    st
  else if visibleWithCompleteResult && st.computer.insistOnKeepingHoverVisible &&
      hoverResult.messages.length == 0 then
    st
  else
    ContentHoverController.setCurrentResult env st (some hoverResult)

/-- The participant scan inside `_addLoadingMessage` (contentHover.ts
225-232): the first participant whose `createLoadingMessage` yields a
message wins. -/
def ContentHoverController.findLoadingMessage :
    List Participant → HoverAnchor → Option IHoverPart
  | [], _ => none
  | p :: rest, anchor =>
    match p.createLoadingMessage with
    | some create =>
      match create anchor with
      | some m => some m
      | none => ContentHoverController.findLoadingMessage rest anchor
    | none => ContentHoverController.findLoadingMessage rest anchor

/-- `ContentHoverController._addLoadingMessage` (contentHover.ts 223-235):
appends (never merges) the loading message after the real parts. -/
def ContentHoverController.addLoadingMessage (env : HoverEnv) (st : ControllerState)
    (result : List IHoverPart) : List IHoverPart :=
  match st.computer.anchor with
  | some anchor =>
    match ContentHoverController.findLoadingMessage env.participants anchor with
    | some loadingMessage => result ++ [loadingMessage]
    | none => result
  | none => result

/-- The payload of the external `HoverOperation`'s result event. -/
structure OperationResult where
  value : List IHoverPart
  isComplete : Bool
  hasLoadingMessage : Bool
deriving Repr

/-- The `onResult` subscription registered in the controller constructor
(contentHover.ts 60-67): ignore stale callbacks whose anchor was cleared,
optionally append the loading message, then apply `_withResult` to a fresh
`HoverResult` at the computer's anchor. -/
def ContentHoverController.onResult (env : HoverEnv) (st : ControllerState)
    (result : OperationResult) : ControllerState :=
  match st.computer.anchor with
  | none => st
  | some anchor =>
    let messages :=
      if result.hasLoadingMessage then
        ContentHoverController.addLoadingMessage env st result.value
      else result.value
    ContentHoverController.withResult env st
      (HoverResult.base anchor messages result.isComplete)

/-- `ContentHoverController._startShowingOrUpdateHover` (contentHover.ts
125-169). `hasMouseEvent` models `mouseEvent !== null`;
`mouseGettingCloser` is the widget's geometric `isMouseGettingCloser`
answer (external DOM measurement). Returns the new state, the operation
events, and the boolean "shows now or will show". -/
def ContentHoverController.startShowingOrUpdateHover (env : HoverEnv)
    (hoverIsSticky hasMouseEvent mouseGettingCloser : Bool)
    (st : ControllerState) (anchor : Option HoverAnchor) (mode : HoverStartMode)
    (source : HoverStartSource) (focus : Bool) :
    ControllerState × List OperationEvent × Bool :=
  match st.widgetPosition, st.currentResult with
  | some position, some currentResult =>
    let isGettingCloser := hoverIsSticky && hasMouseEvent && mouseGettingCloser
    if isGettingCloser then
      match anchor with
      | some a =>
        let r := ContentHoverController.startHoverOperationIfNecessary st a mode source focus true
        (r.1, r.2, true)
      | none => (st, [], true)
    else
      match anchor with
      | none => (ContentHoverController.setCurrentResult env st none, [], false)
      | some a =>
        if currentResult.anchor.equals a then
          (st, [], true)
        else if !env.canAdoptVisibleHover a currentResult.anchor position then
          let st1 := ContentHoverController.setCurrentResult env st none
          let r := ContentHoverController.startHoverOperationIfNecessary st1 a mode source focus false
          (r.1, r.2, true)
        else
          let st1 := ContentHoverController.setCurrentResult env st
            (some (currentResult.filter env.isValidForHoverAnchor a))
          let r := ContentHoverController.startHoverOperationIfNecessary st1 a mode source focus false
          (r.1, r.2, true)
  | _, _ =>
    match anchor with
    | some a =>
      let r := ContentHoverController.startHoverOperationIfNecessary st a mode source focus false
      (r.1, r.2, true)
    | none => (st, [], false)

/-- `ContentHoverController.hide` (contentHover.ts 201-205). -/
def ContentHoverController.hideHover (env : HoverEnv) (st : ControllerState) :
    ControllerState × List OperationEvent :=
  let st := { st with computer := { st.computer with anchor := none } }
  (ContentHoverController.setCurrentResult env st none, [OperationEvent.cancel])

/-- The coordinator operations that can touch `_currentResult`: an
operation-result callback, a trigger (`maybeShowAt` /
`startShowingAtRange`, both routed through `_startShowingOrUpdateHover`),
an explicit hide, and the tokenization-change re-render (contentHover.ts
73-78). -/
inductive CoordinatorOp where
  | operationResult (result : OperationResult)
  | showOrUpdate (anchor : Option HoverAnchor) (mode : HoverStartMode)
      (source : HoverStartSource) (focus : Bool)
      (hoverIsSticky hasMouseEvent mouseGettingCloser : Bool)
  | hide
  | retokenize

/-- One coordinator operation, projected to the controller state. -/
def ContentHoverController.step (env : HoverEnv) (st : ControllerState) :
    CoordinatorOp → ControllerState
  | .operationResult result => ContentHoverController.onResult env st result
  | .showOrUpdate anchor mode source focus sticky me closer =>
    (ContentHoverController.startShowingOrUpdateHover env sticky me closer
      st anchor mode source focus).1
  | .hide => (ContentHoverController.hideHover env st).1
  | .retokenize =>
    if st.widgetPosition.isSome && st.currentResult.isSome then
      ContentHoverController.setCurrentResult env st st.currentResult
    else st

/-- The stored-result invariant: a non-null `_currentResult` has at least
one message. -/
def ContentHoverController.resultInvariant (st : ControllerState) : Bool :=
  match st.currentResult with
  | some r => !r.messages.isEmpty
  | none => true

/-! Concrete fixtures for the witnesses and counterexamples below. The
anchor/decoration geometry follows the spec's worked example: an anchor on
line 4 spanning columns 3-3, a whole-line decoration and a decoration
restricted to columns 1-2 on the same line. -/

def testRange : Range := ⟨4, 3, 4, 3⟩

def testAnchor : HoverAnchor := ⟨HoverAnchorType.Range, testRange, 0, false⟩

def testPart : IHoverPart := ⟨0, testRange, false, false⟩

def testEnv : HoverEnv :=
  { isValidForHoverAnchor := fun _ _ => true
    canAdoptVisibleHover := fun _ _ _ => true
    rendersNonEmpty := fun _ _ => true
    hasModel := false
    startColumnBoundary := fun _ => 1
    participants := [] }

/-- A visible controller state: complete current result, widget shown. -/
def testState1 : ControllerState :=
  ⟨⟨some testAnchor, false, HoverStartSource.Mouse, false⟩,
   some (HoverResult.base testAnchor [testPart] true), some ⟨4, 3⟩⟩

/-- A hidden controller state with an in-flight anchor. -/
def testState3 : ControllerState :=
  ⟨⟨some testAnchor, false, HoverStartSource.Mouse, false⟩, none, none⟩

/-- Visible with an *incomplete* non-empty result and the insist flag set. -/
def testState5 : ControllerState :=
  ⟨⟨some testAnchor, false, HoverStartSource.Mouse, true⟩,
   some (HoverResult.base testAnchor [testPart] false), some ⟨4, 3⟩⟩

/-- Visible with a *complete* non-empty result and the insist flag set. -/
def testState5c : ControllerState :=
  ⟨⟨some testAnchor, false, HoverStartSource.Mouse, true⟩,
   some (HoverResult.base testAnchor [testPart] true), some ⟨4, 3⟩⟩

def testIncompleteResult : OperationResult := ⟨[], false, false⟩

def emptyCompleteResult : OperationResult := ⟨[], true, false⟩

/-- A participant validity rule: parts of owner 0 are valid for every
anchor, other parts only for priority-1 anchors. -/
def validByOwner : IHoverPart → HoverAnchor → Bool :=
  fun m a => m.owner == 0 || a.priority == 1

def partP : IHoverPart := ⟨0, ⟨1, 1, 1, 2⟩, false, false⟩

def partQ : IHoverPart := ⟨1, ⟨1, 1, 1, 2⟩, false, false⟩

def anchorPri0 : HoverAnchor := ⟨HoverAnchorType.Range, ⟨1, 1, 1, 2⟩, 0, false⟩

def anchorPri1 : HoverAnchor := ⟨HoverAnchorType.Range, ⟨1, 1, 1, 2⟩, 1, false⟩

def origResult : HoverResult := HoverResult.base anchorPri0 [partP, partQ] true

/-- `origResult` filtered by a priority-0 anchor: `partQ` is dropped, so
this is a `FilteredHoverResult` remembering `origResult`. -/
def onceFiltered : HoverResult := origResult.filter validByOwner anchorPri0

def decoWholeLine : IModelDecoration := ⟨⟨4, 1, 4, 1⟩, ⟨true, false⟩⟩

def decoCols12 : IModelDecoration := ⟨⟨4, 1, 4, 2⟩, ⟨false, false⟩⟩

def testEditor : EditorModel :=
  ⟨10, fun _ => 10, fun l => if l = 4 then [decoWholeLine, decoCols12] else []⟩

def anchorRange6 : Range := ⟨1, 1, 1, 10⟩

def part6 : IHoverPart := ⟨0, ⟨1, 2, 1, 3⟩, false, false⟩

/-- The hover ranges computed for `anchorRange6` with the single part
`part6`. -/
def ranges6 : HoverRanges := ⟨⟨1, 1⟩, ⟨1, 1⟩, ⟨1, 2, 1, 3⟩⟩

/-! ## Theorems -/

@[simp] theorem HoverResult.anchor_base (a : HoverAnchor) (m : List IHoverPart) (c : Bool) :
    (HoverResult.base a m c).anchor = a := rfl

@[simp] theorem HoverResult.messages_base (a : HoverAnchor) (m : List IHoverPart) (c : Bool) :
    (HoverResult.base a m c).messages = m := rfl

@[simp] theorem HoverResult.isComplete_base (a : HoverAnchor) (m : List IHoverPart) (c : Bool) :
    (HoverResult.base a m c).isComplete = c := rfl

theorem Range.containsRange_refl (a : Range) : a.containsRange a := by
  simp [Range.containsRange]

theorem Range.containsRange_trans {a b c : Range}
    (h1 : a.containsRange b) (h2 : b.containsRange c) : a.containsRange c := by
  simp only [Range.containsRange] at *
  omega

theorem Range.plusRange_containsRange_left (a b : Range) :
    (a.plusRange b).containsRange a := by
  simp only [Range.containsRange, Range.plusRange]
  split_ifs <;> omega

theorem Range.plusRange_containsRange_right (a b : Range) :
    (a.plusRange b).containsRange b := by
  simp only [Range.containsRange, Range.plusRange]
  split_ifs <;> omega

theorem Range.containsRange_plusRange {R a b : Range}
    (h1 : R.containsRange a) (h2 : R.containsRange b) :
    R.containsRange (a.plusRange b) := by
  simp only [Range.containsRange, Range.plusRange] at *
  split_ifs <;> omega

/-- Claim C2: filtering a hover result by anchor A1 and then filtering
that result by A2 yields exactly the same result as filtering the original
unfiltered result directly by A2 — repeated filtering never compounds
information loss, because a filtered result delegates any further filter
to its original. -/
theorem C2_filter_chain_delegates_to_original
    (isValid : IHoverPart → HoverAnchor → Bool) (r : HoverResult)
    (a1 a2 : HoverAnchor) :
    (r.filter isValid a1).filter isValid a2 = r.filter isValid a2 := by
  induction r with
  | base a msgs c =>
    by_cases h : (msgs.filter (fun m => isValid m a1)).length = msgs.length
    · simp [HoverResult.filter, h]
    · simp [HoverResult.filter, h]
  | filtered orig a msgs c ih =>
    simpa [HoverResult.filter] using ih

/-- Claim C3: asking to start a hover operation at an anchor equal (same
type and same range) to the computer's current anchor is a no-op: no
cancel, no start, and the computer's anchor, focus, source and insist
flags are all unchanged. -/
theorem C3_redundant_operation_suppressed (st : ControllerState)
    (anchor a : HoverAnchor) (mode : HoverStartMode) (source : HoverStartSource)
    (focus insist : Bool)
    (hanchor : st.computer.anchor = some a) (heq : a.equals anchor = true) :
    ContentHoverController.startHoverOperationIfNecessary st anchor mode source focus insist
      = (st, []) := by
  simp [ContentHoverController.startHoverOperationIfNecessary, hanchor, heq]

theorem C3_witness :
    testState3.computer.anchor = some testAnchor ∧
    testAnchor.equals testAnchor = true ∧
    ContentHoverController.startHoverOperationIfNecessary testState3 testAnchor
      HoverStartMode.Delayed HoverStartSource.Mouse false false = (testState3, []) :=
  ⟨rfl, by decide,
    C3_redundant_operation_suppressed testState3 testAnchor testAnchor
      HoverStartMode.Delayed HoverStartSource.Mouse false false rfl (by decide)⟩

/-- Claim C4 counterexample: `onceFiltered` is a hover result
(`FilteredHoverResult`) whose every message is valid for `anchorPri1`, yet
filtering it by `anchorPri1` returns a different result (the delegate to
the original restores the previously dropped `partQ`), not the identical
instance. -/
theorem C4_counterexample :
    onceFiltered.messages.all (fun m => validByOwner m anchorPri1) = true ∧
    onceFiltered.filter validByOwner anchorPri1 ≠ onceFiltered := by
  constructor
  · decide
  · decide

/-- Claim C4 (amended): for an *unfiltered* (base) hover result whose every
part satisfies `isValidForHoverAnchor` for the anchor, `filter` returns the
identical result, with no information narrowing; a `FilteredHoverResult`
instead delegates to its original, which may return a different (even
larger) result. -/
theorem C4_amended_base_filter_is_identity
    (isValid : IHoverPart → HoverAnchor → Bool) (anchor : HoverAnchor)
    (msgs : List IHoverPart) (c : Bool) (a : HoverAnchor)
    (h : msgs.all (fun m => isValid m a) = true) :
    (HoverResult.base anchor msgs c).filter isValid a = HoverResult.base anchor msgs c := by
  have hfilter : msgs.filter (fun m => isValid m a) = msgs :=
    List.filter_eq_self.mpr (by simpa [List.all_eq_true] using h)
  simp [HoverResult.filter, hfilter]

theorem C4_amended_witness :
    ([partP].all (fun m => validByOwner m anchorPri1) = true) ∧
    (HoverResult.base anchorPri0 [partP] true).filter validByOwner anchorPri1
      = HoverResult.base anchorPri0 [partP] true :=
  ⟨by decide,
    C4_amended_base_filter_is_identity validByOwner anchorPri0 [partP] true anchorPri1
      (by decide)⟩

/-- Claim C1: when the overlay widget is visible and the current result is
complete, an arriving incomplete operation result is suppressed: the
controller state — current result and displayed content — is unchanged
(a complete view is never regressed to a partial one). -/
theorem C1_no_regression_to_partial (env : HoverEnv) (st : ControllerState)
    (result : OperationResult) (r : HoverResult)
    (hvis : st.widgetPosition.isSome = true)
    (hcur : st.currentResult = some r)
    (hcomplete : r.isComplete = true)
    (hincomplete : result.isComplete = false) :
    ContentHoverController.onResult env st result = st := by
  cases hanch : st.computer.anchor with
  | none => simp [ContentHoverController.onResult, hanch]
  | some anchor =>
    simp [ContentHoverController.onResult, hanch, ContentHoverController.withResult,
      hvis, hcur, hcomplete, hincomplete]

theorem C1_witness :
    testState1.widgetPosition.isSome = true ∧
    testState1.currentResult = some (HoverResult.base testAnchor [testPart] true) ∧
    (HoverResult.base testAnchor [testPart] true).isComplete = true ∧
    testIncompleteResult.isComplete = false ∧
    ContentHoverController.onResult testEnv testState1 testIncompleteResult = testState1 :=
  ⟨rfl, rfl, rfl, rfl,
    C1_no_regression_to_partial testEnv testState1 testIncompleteResult
      (HoverResult.base testAnchor [testPart] true) rfl rfl rfl rfl⟩

/-- Claim C5 counterexample: the insist-on-keeping-visible flag is set, the
overlay is visible with a non-empty (but still incomplete) result, and a
result with zero parts arrives; the code adopts it, normalizes it to null
and hides the overlay, instead of suppressing the update — the suppression
in `_withResult` is guarded by the current result being complete. -/
theorem C5_counterexample :
    testState5.computer.insistOnKeepingHoverVisible = true ∧
    testState5.widgetPosition.isSome = true ∧
    testState5.currentResult ≠ none ∧
    emptyCompleteResult.value = [] ∧
    (ContentHoverController.onResult testEnv testState5 emptyCompleteResult).currentResult
      = none ∧
    (ContentHoverController.onResult testEnv testState5 emptyCompleteResult).widgetPosition
      = none := by
  refine ⟨rfl, rfl, by decide, rfl, by decide, by decide⟩

/-- Claim C5 (amended): the insist-on-keeping-visible suppression applies
when the overlay is visible with a previously *complete* result: a result
with zero messages then leaves the state (and the displayed non-empty
result) unchanged. When the visible result is still incomplete, the empty
result is instead adopted and the hover hides, as the counterexample
shows. -/
theorem C5_amended_insist_empty_suppressed (env : HoverEnv) (st : ControllerState)
    (hr : HoverResult) (r : HoverResult)
    (hvis : st.widgetPosition.isSome = true)
    (hcur : st.currentResult = some r)
    (hcomplete : r.isComplete = true)
    (hinsist : st.computer.insistOnKeepingHoverVisible = true)
    (hempty : hr.messages = []) :
    ContentHoverController.withResult env st hr = st := by
  cases hc : hr.isComplete <;>
    simp [ContentHoverController.withResult, hvis, hcur, hcomplete, hinsist, hempty, hc]

theorem C5_amended_witness :
    testState5c.widgetPosition.isSome = true ∧
    testState5c.currentResult = some (HoverResult.base testAnchor [testPart] true) ∧
    testState5c.computer.insistOnKeepingHoverVisible = true ∧
    (HoverResult.base testAnchor [] true).messages = [] ∧
    ContentHoverController.withResult testEnv testState5c
      (HoverResult.base testAnchor [] true) = testState5c :=
  ⟨rfl, rfl, rfl, rfl,
    C5_amended_insist_empty_suppressed testEnv testState5c
      (HoverResult.base testAnchor [] true) (HoverResult.base testAnchor [testPart] true)
      rfl rfl rfl rfl rfl⟩

/-- Claim C9: when the overlay is visible, the sticky proximity-retention
path does not apply, and the candidate anchor equals the anchor of the
currently displayed result, the trigger is a no-op: it reports "still
showing" (`true`), the state is unchanged, and zero operations are
issued. -/
theorem C9_equal_anchor_still_showing (env : HoverEnv) (st : ControllerState)
    (hoverIsSticky hasMouseEvent mouseGettingCloser : Bool) (b : HoverAnchor)
    (mode : HoverStartMode) (source : HoverStartSource) (focus : Bool)
    (pos : Position) (r : HoverResult)
    (hpos : st.widgetPosition = some pos)
    (hcur : st.currentResult = some r)
    (hcloser : (hoverIsSticky && hasMouseEvent && mouseGettingCloser) = false)
    (heq : r.anchor.equals b = true) :
    ContentHoverController.startShowingOrUpdateHover env hoverIsSticky hasMouseEvent
      mouseGettingCloser st (some b) mode source focus = (st, [], true) := by
  simp [ContentHoverController.startShowingOrUpdateHover, hpos, hcur, hcloser, heq]

theorem C9_witness :
    testState1.widgetPosition = some ⟨4, 3⟩ ∧
    testState1.currentResult = some (HoverResult.base testAnchor [testPart] true) ∧
    ((false && false && false) = false) ∧
    (HoverResult.base testAnchor [testPart] true).anchor.equals testAnchor = true ∧
    ContentHoverController.startShowingOrUpdateHover testEnv false false false testState1
      (some testAnchor) HoverStartMode.Delayed HoverStartSource.Mouse false
      = (testState1, [], true) :=
  ⟨rfl, rfl, rfl, by decide,
    C9_equal_anchor_still_showing testEnv testState1 false false false testAnchor
      HoverStartMode.Delayed HoverStartSource.Mouse false ⟨4, 3⟩
      (HoverResult.base testAnchor [testPart] true) rfl rfl rfl (by decide)⟩

/-- Claim C7: for an anchor allowed to see decorations, a decoration on a
valid line qualifies iff it is whole-line, or its column span on the
anchor's line covers the anchor's column span, with a one-column tolerance
on each side when marked show-if-collapsed; and a non-Range anchor that
does not support marker hover receives an empty decoration list regardless
of the line's decorations. -/
theorem C7_line_decoration_filtering (editor : EditorModel) (anchor : HoverAnchor) :
    (anchor.type ≠ HoverAnchorType.Range ∧ anchor.supportsMarkerHover = false →
      ContentHoverComputer.getLineDecorations editor anchor = []) ∧
    ((anchor.type = HoverAnchorType.Range ∨ anchor.supportsMarkerHover = true) →
      anchor.range.startLineNumber ≤ editor.lineCount →
      ∀ d : IModelDecoration,
        d ∈ ContentHoverComputer.getLineDecorations editor anchor ↔
          d ∈ editor.lineDecorations anchor.range.startLineNumber ∧
            specDecorationQualifies editor anchor d = true) := by
  constructor
  · intro h
    simp [ContentHoverComputer.getLineDecorations, h]
  · intro hq hline d
    have hcond : ¬(anchor.type ≠ HoverAnchorType.Range ∧ anchor.supportsMarkerHover = false) := by
      rcases hq with h | h <;> simp [h]
    have hnl : ¬(anchor.range.startLineNumber > editor.lineCount) := by omega
    simp only [ContentHoverComputer.getLineDecorations, if_neg hcond, if_neg hnl,
      List.mem_filter]
    refine and_congr_right fun _ => ?_
    simp only [specDecorationQualifies]
    cases hwl : d.options.isWholeLine <;> cases hsc : d.options.showIfCollapsed <;>
      simp [hwl, hsc]

theorem C7_witness :
    ((testAnchor.type = HoverAnchorType.Range ∨ testAnchor.supportsMarkerHover = true) ∧
      testAnchor.range.startLineNumber ≤ testEditor.lineCount) ∧
    decoWholeLine ∈ ContentHoverComputer.getLineDecorations testEditor testAnchor ∧
    decoCols12 ∉ ContentHoverComputer.getLineDecorations testEditor testAnchor :=
  ⟨⟨Or.inl rfl, by decide⟩,
   ((C7_line_decoration_filtering testEditor testAnchor).2 (Or.inl rfl) (by decide)
      decoWholeLine).mpr (by decide),
   fun hmem =>
     absurd (((C7_line_decoration_filtering testEditor testAnchor).2 (Or.inl rfl)
       (by decide) decoCols12).mp hmem) (by decide)⟩

/-- Concatenating with `foldl` and appending each image equals flattening
the mapped list. -/
theorem foldl_append_eq_flatten {α β : Type} (f : α → List β) :
    ∀ (l : List α) (acc : List β),
      l.foldl (fun a p => a ++ f p) acc = acc ++ (l.map f).flatten
  | [], acc => by simp
  | p :: rest, acc => by
    simp [foldl_append_eq_flatten f rest, List.append_assoc]

/-- Claim C8: `computeSync` concatenates each participant's synchronously
computed parts in the participant-list order — the order fixed at
construction, which is sorted by `hoverOrdinal` — with undefined entries
dropped, and returns the empty list when there is no current anchor or no
model. -/
theorem C8_computeSync_order (editorModel : Option EditorModel)
    (participants : List Participant) (st : ComputerState) :
    (ContentHoverComputer.computeSync editorModel participants st =
      match editorModel, st.anchor with
      | some editor, some anchor =>
        ((participants.map fun p =>
            p.computeSync anchor
              (ContentHoverComputer.getLineDecorations editor anchor))).flatten.filterMap id
      | _, _ => []) ∧
    List.Pairwise (fun p1 p2 => p1.hoverOrdinal ≤ p2.hoverOrdinal)
      (ContentHoverController.sortParticipants participants) := by
  constructor
  · cases editorModel with
    | none => rfl
    | some editor =>
      cases ha : st.anchor with
      | none => simp [ContentHoverComputer.computeSync, ha]
      | some anchor =>
        simp [ContentHoverComputer.computeSync, ha, foldl_append_eq_flatten]
  · have h := @List.sorted_mergeSort Participant
      (fun p1 p2 => decide (p1.hoverOrdinal ≤ p2.hoverOrdinal))
      (fun a b c hab hbc => by
        simp only [decide_eq_true_eq] at *
        omega)
      (fun a b => by
        simp only [Bool.or_eq_true, decide_eq_true_eq]
        omega)
      participants
    exact h.imp (fun hab => by simpa using hab)

/-- The first component of the `computeHoverRanges` fold is the running
`plusRange` union of the message ranges. -/
theorem foldl_hoverRangesStep_fst (L B : Int) :
    ∀ (msgs : List IHoverPart) (acc : Range × Int × Option Range),
      (msgs.foldl (ContentHoverController.hoverRangesStep L B) acc).1 =
        msgs.foldl (fun r m => r.plusRange m.range) acc.1
  | [], _ => rfl
  | m :: rest, acc => by
    rw [List.foldl_cons, List.foldl_cons, foldl_hoverRangesStep_fst L B rest]
    rfl

theorem foldl_plusRange_containsRange_init :
    ∀ (msgs : List IHoverPart) (r0 : Range),
      (msgs.foldl (fun r m => r.plusRange m.range) r0).containsRange r0
  | [], r0 => Range.containsRange_refl r0
  | m :: rest, r0 => by
    rw [List.foldl_cons]
    exact Range.containsRange_trans (foldl_plusRange_containsRange_init rest _)
      (Range.plusRange_containsRange_left r0 m.range)

theorem foldl_plusRange_containsRange_mem :
    ∀ (msgs : List IHoverPart) (r0 : Range) (m : IHoverPart), m ∈ msgs →
      (msgs.foldl (fun r m => r.plusRange m.range) r0).containsRange m.range
  | [], _, m, hm => absurd hm (List.not_mem_nil m)
  | m0 :: rest, r0, m, hm => by
    rw [List.foldl_cons]
    rcases List.mem_cons.mp hm with h | h
    · subst h
      exact Range.containsRange_trans (foldl_plusRange_containsRange_init rest _)
        (Range.plusRange_containsRange_right r0 m.range)
    · exact foldl_plusRange_containsRange_mem rest _ m h

theorem foldl_plusRange_least :
    ∀ (msgs : List IHoverPart) (r0 R : Range), R.containsRange r0 →
      (∀ m ∈ msgs, R.containsRange m.range) →
      R.containsRange (msgs.foldl (fun r m => r.plusRange m.range) r0)
  | [], _, _, h0, _ => h0
  | m :: rest, r0, R, h0, hall => by
    rw [List.foldl_cons]
    exact foldl_plusRange_least rest _ R
      (Range.containsRange_plusRange h0 (hall m (List.mem_cons_self m rest)))
      (fun x hx => hall x (List.mem_cons_of_mem m hx))

/-- The highlight range computed by `computeHoverRanges` is the `plusRange`
fold of the message ranges, seeded with the first message's range — the
anchor range is not part of the fold. -/
theorem computeHoverRanges_highlightRange (hasModel : Bool) (b : Int)
    (anchorRange : Range) (first : IHoverPart) (rest : List IHoverPart) :
    (ContentHoverController.computeHoverRanges hasModel b anchorRange (first :: rest)).map
        HoverRanges.highlightRange =
      some ((first :: rest).foldl (fun r m => r.plusRange m.range) first.range) := by
  simp only [ContentHoverController.computeHoverRanges, Option.map_some]
  exact congrArg some (foldl_hoverRangesStep_fst anchorRange.startLineNumber
    (if hasModel then b else 1) (first :: rest) (first.range, anchorRange.startColumn, none))

/-- Claim C6 counterexample: with an anchor spanning columns 1-10 of line 1
and a single part spanning columns 2-3, the computed highlight range is the
part's range alone (columns 2-3); the smallest enclosing range of the
anchor's range and the part's range would be columns 1-10 — so the
highlight is *not* the union including the anchor's range. -/
theorem C6_counterexample :
    (ContentHoverController.computeHoverRanges false 1 anchorRange6 [part6]).map
        HoverRanges.highlightRange = some ⟨1, 2, 1, 3⟩ ∧
    specAnchorPartsUnion anchorRange6 [part6] = ⟨1, 1, 1, 10⟩ ∧
    (ContentHoverController.computeHoverRanges false 1 anchorRange6 [part6]).map
        HoverRanges.highlightRange ≠ some (specAnchorPartsUnion anchorRange6 [part6]) := by
  refine ⟨by decide, by decide, by decide⟩

/-- Claim C6 (amended): for every anchor range and non-empty message list,
the highlight range computed by `computeHoverRanges` is the smallest
enclosing range (range union) of the *parts'* ranges: it contains every
part's range, and any range containing every part's range contains it. The
anchor's own range is not folded into the union. -/
theorem C6_amended_highlight_is_parts_union (hasModel : Bool) (b : Int)
    (anchorRange : Range) (messages : List IHoverPart) (ranges : HoverRanges)
    (h : ContentHoverController.computeHoverRanges hasModel b anchorRange messages
      = some ranges) :
    (∀ m ∈ messages, ranges.highlightRange.containsRange m.range) ∧
    (∀ R : Range, (∀ m ∈ messages, R.containsRange m.range) →
      R.containsRange ranges.highlightRange) := by
  match messages with
  | [] => simp [ContentHoverController.computeHoverRanges] at h
  | first :: rest =>
    have heq := computeHoverRanges_highlightRange hasModel b anchorRange first rest
    rw [h] at heq
    have hhl : ranges.highlightRange =
        (first :: rest).foldl (fun r m => r.plusRange m.range) first.range :=
      Option.some.inj (by simpa using heq)
    constructor
    · intro m hm
      rw [hhl]
      exact foldl_plusRange_containsRange_mem (first :: rest) first.range m hm
    · intro R hall
      rw [hhl]
      exact foldl_plusRange_least (first :: rest) first.range R
        (hall first (List.mem_cons_self first rest)) hall

theorem C6_amended_witness :
    ContentHoverController.computeHoverRanges false 1 anchorRange6 [part6] = some ranges6 ∧
    ((∀ m ∈ [part6], ranges6.highlightRange.containsRange m.range) ∧
      (∀ R : Range, (∀ m ∈ [part6], R.containsRange m.range) →
        R.containsRange ranges6.highlightRange)) :=
  ⟨by decide,
    C6_amended_highlight_is_parts_union false 1 anchorRange6 [part6] ranges6 (by decide)⟩

/-- `_renderMessages` only moves the widget; it never touches
`_currentResult`. -/
theorem renderMessages_currentResult (env : HoverEnv) (st : ControllerState)
    (anchor : HoverAnchor) (messages : List IHoverPart) :
    (ContentHoverController.renderMessages env st anchor messages).currentResult
      = st.currentResult := by
  unfold ContentHoverController.renderMessages
  split
  · rfl
  · split <;> rfl

theorem resultInvariant_congr {st1 st2 : ControllerState}
    (h : st1.currentResult = st2.currentResult) :
    ContentHoverController.resultInvariant st1
      = ContentHoverController.resultInvariant st2 := by
  unfold ContentHoverController.resultInvariant
  rw [h]

/-- `_setCurrentResult` establishes the stored-result invariant
unconditionally on the result it stores: zero-message results are
normalized to null before being stored. -/
theorem setCurrentResult_invariant (env : HoverEnv) (st : ControllerState)
    (hr : Option HoverResult)
    (h : ContentHoverController.resultInvariant st = true) :
    ContentHoverController.resultInvariant
      (ContentHoverController.setCurrentResult env st hr) = true := by
  unfold ContentHoverController.setCurrentResult
  split
  · exact h
  · match hr with
    | none => rfl
    | some r =>
      by_cases hlen : r.messages.length = 0
      · simp only [if_pos hlen]
        rfl
      · simp only [if_neg hlen]
        rw [resultInvariant_congr (renderMessages_currentResult env _ r.anchor r.messages)]
        unfold ContentHoverController.resultInvariant
        cases hm : r.messages with
        | nil => simp [hm] at hlen
        | cons x xs => simp [hm]

theorem startHoverOperationIfNecessary_currentResult (st : ControllerState)
    (anchor : HoverAnchor) (mode : HoverStartMode) (source : HoverStartSource)
    (focus insist : Bool) :
    (ContentHoverController.startHoverOperationIfNecessary st anchor mode source
      focus insist).1.currentResult = st.currentResult := by
  unfold ContentHoverController.startHoverOperationIfNecessary
  split <;> rfl

theorem withResult_invariant (env : HoverEnv) (st : ControllerState) (hr : HoverResult)
    (h : ContentHoverController.resultInvariant st = true) :
    ContentHoverController.resultInvariant
      (ContentHoverController.withResult env st hr) = true := by
  unfold ContentHoverController.withResult
  dsimp only
  repeat' split
  all_goals first
    | exact h
    | exact setCurrentResult_invariant env st _ h

theorem onResult_invariant (env : HoverEnv) (st : ControllerState)
    (result : OperationResult)
    (h : ContentHoverController.resultInvariant st = true) :
    ContentHoverController.resultInvariant
      (ContentHoverController.onResult env st result) = true := by
  unfold ContentHoverController.onResult
  split
  · exact h
  · exact withResult_invariant env st _ h

theorem startShowingOrUpdateHover_invariant (env : HoverEnv)
    (hoverIsSticky hasMouseEvent mouseGettingCloser : Bool) (st : ControllerState)
    (anchor : Option HoverAnchor) (mode : HoverStartMode) (source : HoverStartSource)
    (focus : Bool)
    (h : ContentHoverController.resultInvariant st = true) :
    ContentHoverController.resultInvariant
      (ContentHoverController.startShowingOrUpdateHover env hoverIsSticky hasMouseEvent
        mouseGettingCloser st anchor mode source focus).1 = true := by
  have hop : ∀ (st1 : ControllerState) (a : HoverAnchor) (i : Bool),
      ContentHoverController.resultInvariant st1 = true →
      ContentHoverController.resultInvariant
        (ContentHoverController.startHoverOperationIfNecessary st1 a mode source focus i).1
          = true := fun st1 a i h1 => by
    rw [resultInvariant_congr (startHoverOperationIfNecessary_currentResult st1 a mode
      source focus i)]
    exact h1
  unfold ContentHoverController.startShowingOrUpdateHover
  dsimp only
  repeat' split
  all_goals first
    | exact h
    | exact hop st _ _ h
    | exact setCurrentResult_invariant env st _ h
    | exact hop _ _ _ (setCurrentResult_invariant env st _ h)

/-- Claim C10: every coordinator operation preserves the invariant that a
non-null current result has at least one message — a result with zero
parts is normalized to null (hiding the overlay) before being stored — so
rendering, and in particular `computeHoverRanges` which reads the first
message's range, is only ever reached with a non-empty part list. -/
theorem C10_currentResult_never_empty (env : HoverEnv) (st : ControllerState)
    (op : CoordinatorOp)
    (h : ContentHoverController.resultInvariant st = true) :
    ContentHoverController.resultInvariant (ContentHoverController.step env st op)
      = true := by
  cases op with
  | operationResult result => exact onResult_invariant env st result h
  | showOrUpdate anchor mode source focus sticky me closer =>
    exact startShowingOrUpdateHover_invariant env sticky me closer st anchor mode source
      focus h
  | hide =>
    exact setCurrentResult_invariant env _ none h
  | retokenize =>
    show ContentHoverController.resultInvariant
      (if (st.widgetPosition.isSome && st.currentResult.isSome) = true then
        ContentHoverController.setCurrentResult env st st.currentResult else st) = true
    split
    · exact setCurrentResult_invariant env st st.currentResult h
    · exact h

theorem C10_witness :
    ContentHoverController.resultInvariant testState1 = true ∧
    ContentHoverController.resultInvariant
      (ContentHoverController.step testEnv testState1 CoordinatorOp.hide) = true :=
  ⟨by decide,
    C10_currentResult_never_empty testEnv testState1 CoordinatorOp.hide (by decide)⟩

end ContentHover
